import Mathlib

/-!
Verification of the predicate-evaluation / row-filtering core of gluesql
(`src/executor/filter.rs`): the `Filter` / `BlendedFilter` façade, the
recursive condition-expression evaluator `check_expr`, operand parsing
(`parse_expr` / `parse_in_expr`), the three-representation scalar
comparator `Parsed`, and set membership `Parsed::exists_in`.

Modelling conventions:
- Rust borrows disappear: `Parsed::LiteralRef`/`ValueRef` simply hold the
  datum they reference.
- A Rust panic (an `unwrap` of `None` or `Err`) is modelled as
  `Except.error ()`; the Rust functions' declared result type (`bool`,
  `Option<Parsed>`) sits inside `Except.ok`.
- The lazy row iterator produced for an `IN (SELECT ...)` list is modelled
  as a `List` of elements each of which is either a value or a deferred
  panic (the `unwrap` in the iterator's `map` fires only when the element
  is actually pulled).
- Types that live outside the shown source (`Value`, `Literal`, the
  contexts, the `select` collaborator, `Row::take_first_value`) are
  modelled from the spec; each such definition says so in its doc comment.
-/

namespace GlueSQL

/-- Modelled from the spec: the canonical typed runtime `Value`
(integer, text, boolean, null).  The spec also lists a floating-point
variant; it is omitted because no claim depends on it. -/
inductive Value
  | I64 (n : Int)
  | Str (s : String)
  | Bool (b : Bool)
  | Null
deriving DecidableEq, Repr

/-- Modelled from the spec: a parsed source literal (`nom_sql::Literal`,
external to this repository).  Equality between two literals is the
derived structural equality. -/
inductive Literal
  | Null
  | Integer (n : Int)
  | Str (s : String)
deriving DecidableEq, Repr

/-- Modelled from the spec: the Literal Comparator reduces every
literal-vs-value comparison to "a single canonical Value-vs-Value
comparison"; this is the canonical `Value` a `Literal` converts to. -/
def litToValue : Literal → Value
  | .Null => .Null
  | .Integer n => .I64 n
  | .Str s => .Str s

/-- Modelled from the spec: the `Value == Literal` comparison
(`PartialEq<Literal> for Value`, in `data/value.rs`, outside the shown
source): compare the value against the literal's canonical `Value`. -/
def valueEqLiteral (v : Value) (l : Literal) : Bool :=
  decide (v = litToValue l)

/-- Modelled from the spec: a column reference (`nom_sql::Column`): a
column name with an optional table qualifier. -/
structure Column where
  name : String
  table : Option String
deriving DecidableEq, Repr

/-- A row: an ordered sequence of values positionally aligned with a
table's declared columns. -/
abbrev Row := List Value

/-- Modelled from the spec: `Row::take_first_value` extracts the first
column's value from a row; fails (returns none) if the row has zero
columns. -/
def Row.take_first_value (row : Row) : Option Value :=
  row.head?

/-- Modelled from the spec: a `FilterContext` resolution scope built from
a (table, column-list, row) triple, optionally chained to a parent
scope. -/
inductive FilterContext
  | mk (table : String) (columns : List Column) (row : Row)
       (next : Option FilterContext)

/-- Modelled from the spec: column lookup first checks this scope's own
(table, column-list) pair — if the reference's table qualifier matches (or
is absent) and the name appears in the column list, index into the bound
row at the matching column's position — then defers to the parent if
present; it never merges two scopes, only falls through. -/
def FilterContext.get_value : FilterContext → Column → Option Value
  | .mk table columns row next, target =>
    (if target.table = none ∨ target.table = some table
     then columns.findIdx? fun c => decide (c.name = target.name)
     else none).elim
      (match next with
       | some parent => parent.get_value target
       | none => none)
      (fun i => row.get? i)

/-- Modelled from the spec: a `BlendContext` — a second, independent scope
for a row being assembled from multiple sources, with its own context
chain of resolvable columns. -/
inductive BlendContext
  | mk (table : String) (columns : List Column) (row : Row)
       (next : Option BlendContext)

/-- Modelled from the spec: lookup in the BlendContext's own context
chain, with the same own-scope-then-parent shape as `FilterContext`. -/
def BlendContext.get_value : BlendContext → Column → Option Value
  | .mk table columns row next, target =>
    (if target.table = none ∨ target.table = some table
     then columns.findIdx? fun c => decide (c.name = target.name)
     else none).elim
      (match next with
       | some parent => parent.get_value target
       | none => none)
      (fun i => row.get? i)

/-- The comparison/logical operators of `nom_sql::Operator` (external to
this repository); `check_expr` dispatches on them. -/
inductive Operator
  | Not | And | Or | Like | NotLike | Equal | NotEqual
  | Greater | GreaterOrEqual | Less | LessOrEqual | In | NotIn | Is
deriving DecidableEq, Repr

/-- `nom_sql::ConditionBase`, generic over the opaque nested-SELECT
statement type `σ`: a column field reference, a literal scalar, a literal
list, or a nested SELECT statement. -/
inductive ConditionBase (σ : Type)
  | Field (column : Column)
  | Literal (literal : Literal)
  | LiteralList (literals : List Literal)
  | NestedSelect (statement : σ)

mutual

/-- `nom_sql::ConditionExpression`: comparison/logical nodes over a
`ConditionTree`, negation, bracketing, a base leaf, or an (opaque)
arithmetic node — the latter is one of the node kinds `check_expr` leaves
to its fail-closed default arm. -/
inductive ConditionExpression (σ : Type)
  | ComparisonOp (tree : ConditionTree σ)
  | LogicalOp (tree : ConditionTree σ)
  | NegationOp (expr : ConditionExpression σ)
  | Bracketed (expr : ConditionExpression σ)
  | Base (base : ConditionBase σ)
  | Arithmetic (opaquePayload : Unit)

/-- `nom_sql::ConditionTree`: an operator with left and right
sub-expressions. -/
inductive ConditionTree (σ : Type)
  | mk (operator : Operator) (left : ConditionExpression σ)
       (right : ConditionExpression σ)

end

/-- The three-representation scalar operand (`Parsed` in `filter.rs`):
a reference to a parsed source literal, a reference into a stored row's
value, or an owned computed value.  Borrows are modelled by holding the
datum itself. -/
inductive Parsed
  | LiteralRef (l : Literal)
  | ValueRef (v : Value)
  | Value (v : Value)
deriving DecidableEq, Repr

/-- `impl PartialEq for Parsed` — the explicit 3×3 comparison matrix of
`filter.rs`, case for case.  `lr == lr2` is the derived structural
equality of `Literal`; every mixed case goes through the
`Value == Literal` comparison `valueEqLiteral`. -/
def Parsed.eq : Parsed → Parsed → Bool
  | .LiteralRef lr, .LiteralRef lr2 => decide (lr = lr2)
  | .LiteralRef lr, .ValueRef vr => valueEqLiteral vr lr
  | .LiteralRef lr, .Value v => valueEqLiteral v lr
  | .Value v, .LiteralRef lr => valueEqLiteral v lr
  | .Value v, .ValueRef vr => decide (v = vr)
  | .Value v, .Value v2 => decide (v = v2)
  | .ValueRef vr, .LiteralRef lr => valueEqLiteral vr lr
  | .ValueRef vr, .ValueRef vr2 => decide (vr = vr2)
  | .ValueRef vr, .Value v => decide (v = vr)

/-- The element list of the lazy `ParsedList::Value` iterator: each
element is either a produced value or a deferred panic. -/
abbrev LazyValues : Type := List (Except Unit Value)

/-- `ParsedList` of `filter.rs`: either an eagerly available literal list,
or the lazy iterator built from a nested SELECT.  Each element of the lazy
form is either a produced value or a deferred panic (`Except.error ()`):
the iterator's `map(|v| v.unwrap())` fires only when the element is
pulled. -/
inductive ParsedList
  | LiteralRef (literals : List Literal)
  | Value (values : LazyValues)

/-- The `Value` arm of `Parsed::exists_in`:
`values.into_iter().any(|value| &Parsed::Value(value) == self)` — pull the
next element (which may panic), stop at the first match, otherwise keep
consuming. -/
def Parsed.existsInValues (self : Parsed) : LazyValues → Except Unit Bool
  | [] => .ok false
  | .error _ :: _ => .error ()
  | .ok value :: rest =>
    if Parsed.eq (.Value value) self then .ok true
    else Parsed.existsInValues self rest

/-- `Parsed::exists_in`: set membership of `self` in a `ParsedList`, via
short-circuiting `any` on either form. -/
def Parsed.exists_in (self : Parsed) (list : ParsedList) : Except Unit Bool :=
  match list with
  | .LiteralRef literals =>
    .ok (literals.any fun literal => Parsed.eq (.LiteralRef literal) self)
  | .Value values => Parsed.existsInValues self values

/-- Instrumented consumption counter for the lazy arm of
`Parsed::exists_in`: how many elements of the sequence are pulled
(the spec asks for exactly this instrumentation to state the laziness
property). -/
def Parsed.existsInPulls (self : Parsed) : LazyValues → Nat
  | [] => 0
  | .error _ :: _ => 1
  | .ok value :: rest =>
    if Parsed.eq (.Value value) self then 1
    else 1 + Parsed.existsInPulls self rest

/-- Modelled from the spec: the Row Producer / Storage collaborator —
`select(storage, statement, outer_context)` produces the (finite) sequence
of rows of a nested SELECT, given the optional outer context for
correlation.  The storage handle and statement are abstracted into this
one function, generic over the opaque statement type `σ`. -/
def SelectFn (σ : Type) : Type :=
  σ → Option FilterContext → List Row

/-- `parse_expr` of `filter.rs`: resolve an expression to a scalar
`Parsed` operand.  `Except.ok none` is a resolution miss
(`parse_base`'s `_ => None` arms, or an unresolved column);
`Except.error ()` models the panic of the two `unwrap`s in the
`NestedSelect` arm (`.nth(0).unwrap()` on an empty row sequence,
`take_first_value(..).unwrap()` on an empty row). -/
def parse_expr (storage : SelectFn σ) (context : FilterContext)
    (blend_context : Option BlendContext) :
    ConditionExpression σ → Except Unit (Option Parsed)
  | .Base base =>
    match base with
    | .Field column =>
      .ok (((context.get_value column).or
              (blend_context.bind fun c => c.get_value column)).map
            fun value => Parsed.ValueRef value)
    | .Literal literal => .ok (some (.LiteralRef literal))
    | .NestedSelect statement =>
      match (storage statement (some context)).head? with
      | none => .error ()
      | some first_row =>
        match Row.take_first_value first_row with
        | none => .error ()
        | some value => .ok (some (.Value value))
    | _ => .ok none
  | _ => .ok none

/-- `parse_in_expr` of `filter.rs`: resolve an expression to a
`ParsedList`.  Building the lazy iterator itself cannot panic; the
per-element `unwrap` is deferred into the list elements. -/
def parse_in_expr (storage : SelectFn σ) (context : FilterContext) :
    ConditionExpression σ → Option ParsedList
  | .Base base =>
    match base with
    | .LiteralList literals => some (.LiteralRef literals)
    | .NestedSelect statement =>
      some (.Value ((storage statement (some context)).map fun row =>
        match Row.take_first_value row with
        | some value => .ok value
        | none => .error ()))
    | _ => none
  | _ => none

/-- The `zip_parse` closure of `check_expr`: both sides must resolve to a
scalar, `Err(())` otherwise.  A panic inside either `parse_expr` call also
lands in `.error` (in the source it propagates as a panic; the caller
unwraps the `Err` into a panic anyway, so the two coincide after
`result.unwrap()`). -/
def zip_parse (storage : SelectFn σ) (context : FilterContext)
    (blend_context : Option BlendContext)
    (left right : ConditionExpression σ) : Except Unit (Parsed × Parsed) :=
  match parse_expr storage context blend_context left,
        parse_expr storage context blend_context right with
  | .ok (some l), .ok (some r) => .ok (l, r)
  | _, _ => .error ()

/-- The `zip_in` closure of `check_expr`: left side a scalar, right side a
list, `Err(())` otherwise. -/
def zip_in (storage : SelectFn σ) (context : FilterContext)
    (blend_context : Option BlendContext)
    (left right : ConditionExpression σ) : Except Unit (Parsed × ParsedList) :=
  match parse_expr storage context blend_context left,
        parse_in_expr storage context right with
  | .ok (some l), some r => .ok (l, r)
  | _, _ => .error ()

mutual

/-- `check_expr` of `filter.rs`: the recursive condition evaluator.
Its Rust signature returns `bool`; `Except.error ()` models a panic
escaping from it (the source has no error channel).  Comparison and
logical nodes both go through the `check_tree` body; negation inverts the
recursive result; brackets are a transparent pass-through; every other
node kind (`Base`, `Arithmetic`) evaluates to `false`. -/
def check_expr (storage : SelectFn σ) (context : FilterContext)
    (blend_context : Option BlendContext) :
    ConditionExpression σ → Except Unit Bool
  | .ComparisonOp tree => check_tree storage context blend_context tree
  | .LogicalOp tree => check_tree storage context blend_context tree
  | .NegationOp expr =>
    match check_expr storage context blend_context expr with
    | .ok b => .ok (!b)
    | .error e => .error e
  | .Bracketed expr => check_expr storage context blend_context expr
  | .Base _ => .ok false
  | .Arithmetic _ => .ok false

/-- The `check_tree` closure of `check_expr`: dispatch on the tree's
operator.  `Equal`/`NotEqual` zip-parse both sides and compare;
`And`/`Or` recursively check both sides unconditionally (the source
builds the pair before combining);
`In` zips a scalar left with a list right; every other operator yields
`Ok(false)`.  The source ends with `result.unwrap()`, so an `Err` from a
zip (a side that failed to resolve) is a panic: `.error ()`. -/
def check_tree (storage : SelectFn σ) (context : FilterContext)
    (blend_context : Option BlendContext) :
    ConditionTree σ → Except Unit Bool
  | .mk operator left right =>
    match operator with
    | .Equal =>
      match zip_parse storage context blend_context left right with
      | .ok (l, r) => .ok (Parsed.eq l r)
      | .error _ => .error ()
    | .NotEqual =>
      match zip_parse storage context blend_context left right with
      | .ok (l, r) => .ok (!(Parsed.eq l r))
      | .error _ => .error ()
    | .And =>
      match check_expr storage context blend_context left,
            check_expr storage context blend_context right with
      | .ok l, .ok r => .ok (l && r)
      | .error _, _ => .error ()
      | _, .error _ => .error ()
    | .Or =>
      match check_expr storage context blend_context left,
            check_expr storage context blend_context right with
      | .ok l, .ok r => .ok (l || r)
      | .error _, _ => .error ()
      | _, .error _ => .error ()
    | .In =>
      match zip_in storage context blend_context left right with
      | .ok (l, r) => l.exists_in r
      | .error _ => .error ()
    | _ => .ok false

end

/-- `Filter` of `filter.rs`: the public predicate object — the storage
handle (abstracted into the `select` collaborator), an optional bound
WHERE clause, and an optional outer `FilterContext`. -/
structure Filter (σ : Type) where
  storage : SelectFn σ
  where_clause : Option (ConditionExpression σ)
  context : Option FilterContext

/-- `Filter::check`: build a fresh `FilterContext` from the given
(table, columns, row) triple chained to the filter's outer context, then
`map_or(true, ..)` over the optional WHERE clause. -/
def Filter.check (self : Filter σ) (table : String) (columns : List Column)
    (row : Row) : Except Unit Bool :=
  let context := FilterContext.mk table columns row self.context
  match self.where_clause with
  | none => .ok true
  | some expr => check_expr self.storage context none expr

/-- `BlendedFilter` of `filter.rs`: a `Filter` plus a bound
`BlendContext`. -/
structure BlendedFilter (σ : Type) where
  filter : Filter σ
  context : BlendContext

/-- `BlendedFilter::check`: identical to `Filter::check` but passes the
bound `BlendContext` to the evaluator. -/
def BlendedFilter.check (self : BlendedFilter σ) (table : String)
    (columns : List Column) (row : Row) : Except Unit Bool :=
  let context := FilterContext.mk table columns row self.filter.context
  match self.filter.where_clause with
  | none => .ok true
  | some expr =>
    check_expr self.filter.storage context (some self.context) expr


/-- Unfolding equation for `FilterContext.get_value` on a constructed
scope. -/
theorem FilterContext.get_value_mk (table : String) (columns : List Column)
    (row : Row) (next : Option FilterContext) (target : Column) :
    FilterContext.get_value (.mk table columns row next) target =
      (if target.table = none ∨ target.table = some table
       then columns.findIdx? fun c => decide (c.name = target.name)
       else none).elim
        (match next with
         | some parent => parent.get_value target
         | none => none)
        (fun i => row.get? i) := by
  rw [FilterContext.get_value.eq_def]

/-- The logical scalar a `Parsed` operand carries, independent of which of
the three representations it arrived in: a literal reference carries its
canonical `Value`, the other two carry their value directly. -/
def logicalValue : Parsed → Value
  | .LiteralRef l => litToValue l
  | .ValueRef v => v
  | .Value v => v

theorem litToValue_injective : Function.Injective litToValue := by
  intro a b h
  cases a <;> cases b <;> simp_all [litToValue]

/-- The whole 3×3 matrix of `Parsed::eq` reduces to one canonical
value-vs-value comparison of the logical values. -/
theorem parsed_eq_eq_logical (p q : Parsed) :
    Parsed.eq p q = decide (logicalValue p = logicalValue q) := by
  cases p <;> cases q <;>
    simp [Parsed.eq, valueEqLiteral, logicalValue, decide_eq_decide,
      litToValue_injective.eq_iff, eq_comm]

/-- Claim C4: `Parsed` equality is representation-agnostic — substituting
either operand by any other representation carrying the same logical
value (any of the 9 pairings of literal-reference, stored-value-reference
and owned-computed-value) leaves the comparison result unchanged. -/
theorem claim4_representation_agnostic_eq (a a2 b b2 : Parsed)
    (ha : logicalValue a = logicalValue a2)
    (hb : logicalValue b = logicalValue b2) :
    Parsed.eq a b = Parsed.eq a2 b2 := by
  rw [parsed_eq_eq_logical, parsed_eq_eq_logical, ha, hb]

theorem claim4_witness :
    Parsed.eq (.LiteralRef (.Integer 1)) (.ValueRef (.I64 1)) =
      Parsed.eq (.Value (.I64 1)) (.LiteralRef (.Integer 1)) :=
  claim4_representation_agnostic_eq _ _ _ _ rfl rfl

/-- Claim C5: with no bound WHERE clause, `Filter::check` and
`BlendedFilter::check` return `true` for every table, column list and
row. -/
theorem claim5_no_where_clause_true (σ : Type) (f : Filter σ)
    (bf : BlendedFilter σ) (hf : f.where_clause = none)
    (hbf : bf.filter.where_clause = none) (table : String)
    (columns : List Column) (row : Row) :
    f.check table columns row = .ok true ∧
      bf.check table columns row = .ok true := by
  refine ⟨?_, ?_⟩
  · simp [Filter.check, hf]
  · simp [BlendedFilter.check, hbf]

theorem claim5_witness :
    Filter.check (σ := Unit) ⟨fun _ _ => [], none, none⟩ "t" [] [] = .ok true ∧
      BlendedFilter.check (σ := Unit)
        ⟨⟨fun _ _ => [], none, none⟩, .mk "b" [] [] none⟩ "t" [] [] = .ok true :=
  claim5_no_where_clause_true Unit _ _ rfl rfl "t" [] []

/-- Claim C8: double negation and bracketing are transparent — for every
expression and every evaluation context, `NegationOp (NegationOp e)` and
`Bracketed e` evaluate exactly as `e` does (panics included). -/
theorem claim8_double_negation_bracket (σ : Type) (storage : SelectFn σ)
    (context : FilterContext) (blend_context : Option BlendContext)
    (e : ConditionExpression σ) :
    check_expr storage context blend_context (.NegationOp (.NegationOp e)) =
        check_expr storage context blend_context e ∧
      check_expr storage context blend_context (.Bracketed e) =
        check_expr storage context blend_context e := by
  refine ⟨?_, rfl⟩
  cases h : check_expr storage context blend_context e <;>
    simp [check_expr, h]


/-- Claim C1 is false on the code at this concrete input: a WHERE clause
`missing = 2` over a row whose scope has no column `missing` makes
`Filter::check` panic (the final `result.unwrap()` of `check_tree` fires
on the `Err` produced by `zip_parse`), instead of evaluating the
comparison to false. -/
theorem claim1_counterexample :
    Filter.check (σ := Unit)
        ⟨fun _ _ => [],
         some (.ComparisonOp (.mk .Equal (.Base (.Field ⟨"missing", none⟩))
           (.Base (.Literal (.Integer 2))))),
         none⟩ "t" [⟨"userId", none⟩] [.I64 2] = .error () ∧
      Filter.check (σ := Unit)
        ⟨fun _ _ => [],
         some (.ComparisonOp (.mk .Equal (.Base (.Field ⟨"missing", none⟩))
           (.Base (.Literal (.Integer 2))))),
         none⟩ "t" [⟨"userId", none⟩] [.I64 2] ≠ .ok false :=
  ⟨rfl, fun h => Except.noConfusion h⟩

/-- Claim C1 (amended): for an Equal or NotEqual comparison, if either
side fails to resolve to a scalar `Parsed` value (a resolution miss:
`parse_expr` returns `Ok(None)`), the evaluation panics — the final
`result.unwrap()` fires on the `Err` from `zip_parse` — rather than
evaluating the comparison to false. -/
theorem claim1_amended_resolution_miss_panics (σ : Type)
    (storage : SelectFn σ) (context : FilterContext)
    (blend_context : Option BlendContext) (operator : Operator)
    (left right : ConditionExpression σ)
    (hop : operator = .Equal ∨ operator = .NotEqual)
    (h : parse_expr storage context blend_context left = .ok none ∨
         parse_expr storage context blend_context right = .ok none) :
    check_tree storage context blend_context (.mk operator left right) =
      .error () := by
  have hz : zip_parse storage context blend_context left right = .error () := by
    rcases h with h | h
    · cases hr : parse_expr storage context blend_context right <;>
        simp [zip_parse, h, hr]
    · cases hl : parse_expr storage context blend_context left <;>
        simp [zip_parse, h, hl]
  rcases hop with hop | hop <;> subst hop <;> simp [check_tree, hz]

theorem claim1_amended_witness :
    check_tree (σ := Unit) (fun _ _ => []) (.mk "t" [] [] none) none
      (.mk .Equal (.Base (.Field ⟨"missing", none⟩))
        (.Base (.Literal (.Integer 2)))) = .error () :=
  claim1_amended_resolution_miss_panics Unit _ _ _ _ _ _ (Or.inl rfl)
    (Or.inl rfl)

/-- Claim C2, code evaluated at the failing input: with a nested SELECT in
scalar position whose subquery yields zero rows, `Filter::check` panics —
`select(..).nth(0).unwrap()` fires on `None` — instead of surfacing a
result-style SubqueryCardinalityError; the `check` signature (`-> bool`)
has no error channel at all. -/
theorem claim2_zero_row_subquery_panics :
    Filter.check (σ := Unit)
      ⟨fun _ _ => [],
       some (.ComparisonOp (.mk .Equal (.Base (.NestedSelect ()))
         (.Base (.Literal (.Integer 1))))),
       none⟩ "t" [] [] = .error () := rfl

/-- Claim C3 is false on the code at this concrete input: column `x` is
absent from the current (table, column-list, row) scope, the outer
FilterContext parent holds `x = 1` and the BlendContext holds `x = 2`;
the code resolves `x` to the parent's `1` (WHERE `x = 2` is false, WHERE
`x = 1` is true), whereas the claimed precedence order (blend before
parent chain) would resolve it to `2`. -/
theorem claim3_counterexample :
    BlendedFilter.check (σ := Unit)
        ⟨⟨fun _ _ => [],
          some (.ComparisonOp (.mk .Equal (.Base (.Field ⟨"x", none⟩))
            (.Base (.Literal (.Integer 2))))),
          some (.mk "outer" [⟨"x", none⟩] [.I64 1] none)⟩,
         .mk "blend" [⟨"x", none⟩] [.I64 2] none⟩
        "t" [⟨"y", none⟩] [.I64 9] = .ok false ∧
      BlendedFilter.check (σ := Unit)
        ⟨⟨fun _ _ => [],
          some (.ComparisonOp (.mk .Equal (.Base (.Field ⟨"x", none⟩))
            (.Base (.Literal (.Integer 1))))),
          some (.mk "outer" [⟨"x", none⟩] [.I64 1] none)⟩,
         .mk "blend" [⟨"x", none⟩] [.I64 2] none⟩
        "t" [⟨"y", none⟩] [.I64 9] = .ok true :=
  ⟨rfl, rfl⟩

/-- Claim C3 (amended): column resolution precedence on the
`BlendedFilter::check` path is current (table, column-list, row) scope
first, then the FilterContext's parent chain, and only last the
BlendContext's resolvable columns: (1) whatever the FilterContext chain
resolves wins, the blend is ignored; (2) the blend is consulted exactly
when the whole chain misses; (3) within the chain, a current-scope match
answers from the current row; (4) the parent is consulted exactly when
the current scope has no match. -/
theorem claim3_amended_resolution_order (σ : Type) (storage : SelectFn σ)
    (bc : BlendContext) (table : String) (columns : List Column) (row : Row)
    (next : Option FilterContext) (target : Column) (i : Nat) (v : Value) :
    (FilterContext.get_value (.mk table columns row next) target = some v →
      parse_expr storage (.mk table columns row next) (some bc)
          (.Base (.Field target)) = .ok (some (.ValueRef v))) ∧
    (FilterContext.get_value (.mk table columns row next) target = none →
      parse_expr storage (.mk table columns row next) (some bc)
          (.Base (.Field target)) =
        .ok ((bc.get_value target).map fun w => Parsed.ValueRef w)) ∧
    ((target.table = none ∨ target.table = some table) →
      (columns.findIdx? fun c => decide (c.name = target.name)) = some i →
      FilterContext.get_value (.mk table columns row next) target =
        row.get? i) ∧
    ((if target.table = none ∨ target.table = some table
        then columns.findIdx? fun c => decide (c.name = target.name)
        else none) = none →
      FilterContext.get_value (.mk table columns row next) target =
        (match next with
         | some parent => parent.get_value target
         | none => none)) := by
  refine ⟨fun h => ?_, fun h => ?_, fun ht hidx => ?_, fun h => ?_⟩
  · simp [parse_expr, h]
  · simp [parse_expr, h]
  · rw [FilterContext.get_value_mk, if_pos ht, hidx]
    rfl
  · rw [FilterContext.get_value_mk, h]
    rfl

theorem claim3_amended_witness :
    parse_expr (σ := Unit) (fun _ _ => [])
      (.mk "t" [⟨"y", none⟩] [.I64 9]
        (some (.mk "outer" [⟨"x", none⟩] [.I64 1] none)))
      (some (.mk "blend" [⟨"x", none⟩] [.I64 2] none))
      (.Base (.Field ⟨"x", none⟩)) = .ok (some (.ValueRef (.I64 1))) :=
  (claim3_amended_resolution_order Unit (fun _ _ => [])
    (.mk "blend" [⟨"x", none⟩] [.I64 2] none) "t" [⟨"y", none⟩] [.I64 9]
    (some (.mk "outer" [⟨"x", none⟩] [.I64 1] none)) ⟨"x", none⟩ 0
    (.I64 1)).1 rfl

/-- Claim C7: every operator outside Equal/NotEqual/And/Or/In evaluates to
false without error (on both ComparisonOp and LogicalOp nodes), every node
kind outside ComparisonOp/LogicalOp/NegationOp/Bracketed (i.e. Base and
Arithmetic) evaluates to false, and a WHERE clause built from such an
operator admits zero rows: `Filter::check` returns false on every row. -/
theorem claim7_fail_closed (σ : Type) (storage : SelectFn σ)
    (context : FilterContext) (blend_context : Option BlendContext)
    (operator : Operator) (left right : ConditionExpression σ)
    (base : ConditionBase σ) (u : Unit)
    (h1 : operator ≠ .Equal) (h2 : operator ≠ .NotEqual)
    (h3 : operator ≠ .And) (h4 : operator ≠ .Or) (h5 : operator ≠ .In) :
    check_expr storage context blend_context
        (.ComparisonOp (.mk operator left right)) = .ok false ∧
      check_expr storage context blend_context
        (.LogicalOp (.mk operator left right)) = .ok false ∧
      check_expr storage context blend_context (.Base base) = .ok false ∧
      check_expr storage context blend_context (.Arithmetic u) = .ok false ∧
      (∀ (st : SelectFn σ) (outer : Option FilterContext) (table : String)
          (columns : List Column) (row : Row),
        Filter.check ⟨st, some (.ComparisonOp (.mk operator left right)), outer⟩
          table columns row = .ok false) := by
  cases operator <;>
    simp_all [check_expr, check_tree, Filter.check]

theorem claim7_witness :
    check_expr (σ := Unit) (fun _ _ => []) (.mk "t" [] [] none) none
      (.ComparisonOp (.mk .Less (.Base (.Literal (.Integer 1)))
        (.Base (.Literal (.Integer 2))))) = .ok false :=
  (claim7_fail_closed Unit (fun _ _ => []) (.mk "t" [] [] none) none .Less
    (.Base (.Literal (.Integer 1))) (.Base (.Literal (.Integer 2)))
    (.Literal (.Integer 0)) () (by decide) (by decide) (by decide)
    (by decide) (by decide)).1

/-- Claim C9 is false on the code at this concrete input: an In condition
whose right side is the empty literal list but whose left operand does not
resolve (column `x` unknown in scope) panics — `zip_in` yields `Err` and
`result.unwrap()` fires — instead of evaluating to false. -/
theorem claim9_counterexample :
    check_tree (σ := Unit) (fun _ _ => []) (.mk "t" [] [] none) none
        (.mk .In (.Base (.Field ⟨"x", none⟩)) (.Base (.LiteralList []))) =
      .error () ∧
      check_tree (σ := Unit) (fun _ _ => []) (.mk "t" [] [] none) none
          (.mk .In (.Base (.Field ⟨"x", none⟩)) (.Base (.LiteralList []))) ≠
        .ok false :=
  ⟨rfl, fun h => Except.noConfusion h⟩

/-- Claim C9 (amended): for every left operand that resolves to a scalar
`Parsed` value, and every evaluation context, an In condition whose right
side is an empty literal list evaluates to false. -/
theorem claim9_amended_empty_in_list_false (σ : Type) (storage : SelectFn σ)
    (context : FilterContext) (blend_context : Option BlendContext)
    (left : ConditionExpression σ) (p : Parsed)
    (h : parse_expr storage context blend_context left = .ok (some p)) :
    check_tree storage context blend_context
      (.mk .In left (.Base (.LiteralList []))) = .ok false := by
  simp [check_tree, zip_in, h, parse_in_expr, Parsed.exists_in]

theorem claim9_amended_witness :
    check_tree (σ := Unit) (fun _ _ => []) (.mk "t" [] [] none) none
      (.mk .In (.Base (.Literal (.Integer 7))) (.Base (.LiteralList []))) =
      .ok false :=
  claim9_amended_empty_in_list_false Unit _ _ _ _ (.LiteralRef (.Integer 7))
    rfl

/-- Claim C10: whenever both sides of a condition tree resolve to scalar
`Parsed` values, evaluating the tree with NotEqual yields exactly the
boolean negation of evaluating it with Equal. -/
theorem claim10_notequal_negates_equal (σ : Type) (storage : SelectFn σ)
    (context : FilterContext) (blend_context : Option BlendContext)
    (left right : ConditionExpression σ) (pl pr : Parsed)
    (hl : parse_expr storage context blend_context left = .ok (some pl))
    (hr : parse_expr storage context blend_context right = .ok (some pr)) :
    check_tree storage context blend_context (.mk .Equal left right) =
        .ok (Parsed.eq pl pr) ∧
      check_tree storage context blend_context (.mk .NotEqual left right) =
        .ok (!(Parsed.eq pl pr)) := by
  have hz : zip_parse storage context blend_context left right =
      .ok (pl, pr) := by
    simp [zip_parse, hl, hr]
  exact ⟨by simp [check_tree, hz], by simp [check_tree, hz]⟩

theorem claim10_witness :
    check_tree (σ := Unit) (fun _ _ => []) (.mk "t" [] [] none) none
        (.mk .Equal (.Base (.Literal (.Integer 1)))
          (.Base (.Literal (.Integer 2)))) =
        .ok (Parsed.eq (.LiteralRef (.Integer 1)) (.LiteralRef (.Integer 2))) ∧
      check_tree (σ := Unit) (fun _ _ => []) (.mk "t" [] [] none) none
        (.mk .NotEqual (.Base (.Literal (.Integer 1)))
          (.Base (.Literal (.Integer 2)))) =
        .ok (!(Parsed.eq (.LiteralRef (.Integer 1))
          (.LiteralRef (.Integer 2)))) :=
  claim10_notequal_negates_equal Unit _ _ _ _ _ _ _ rfl rfl


/-- A literal-reference operand compares (against anything) exactly as the
owned canonical value it converts to. -/
theorem parsed_eq_literalRef (l : Literal) (self : Parsed) :
    Parsed.eq (.LiteralRef l) self = Parsed.eq (.Value (litToValue l)) self := by
  rw [parsed_eq_eq_logical, parsed_eq_eq_logical]
  rfl

/-- On a lazy sequence all of whose elements produce values (no deferred
panics), `exists_in` returns the short-circuiting `any` of the element
comparisons. -/
theorem existsInValues_map_ok (self : Parsed) (values : List Value) :
    Parsed.existsInValues self (values.map Except.ok) =
      .ok (values.any fun v => Parsed.eq (.Value v) self) := by
  induction values with
  | nil => rfl
  | cons v rest ih =>
    by_cases h : Parsed.eq (.Value v) self = true <;>
      simp [Parsed.existsInValues, h, ih]

/-- The instrumented pull count: one past the length of the longest
non-matching prefix, capped at the sequence length. -/
theorem existsInPulls_map_ok (self : Parsed) (values : List Value) :
    Parsed.existsInPulls self (values.map Except.ok) =
      min values.length
        ((values.takeWhile fun v => !(Parsed.eq (.Value v) self)).length + 1) := by
  induction values with
  | nil => rfl
  | cons v rest ih =>
    by_cases h : Parsed.eq (.Value v) self = true
    · simp [Parsed.existsInPulls, h, List.takeWhile_cons]
    · have hb : Parsed.eq (.Value v) self = false := by
        cases hv : Parsed.eq (.Value v) self
        · rfl
        · exact absurd hv h
      simp [Parsed.existsInPulls, hb, List.takeWhile_cons, ih]
      omega

/-- `any` over a mapped list tests the composed predicate. -/
theorem list_any_map_comp {α β : Type} (f : α → β) (p : β → Bool)
    (l : List α) : (l.map f).any p = l.any fun a => p (f a) := by
  induction l with
  | nil => rfl
  | cons x xs ih => simp [ih]

/-- Claim C6: membership via `Parsed::exists_in` —
(1) on a lazy sequence of produced values it returns true exactly when
some element of the list equals the candidate (stated both as the
short-circuiting `any` and as an existential);
(2) the number of elements pulled is one past the longest non-matching
prefix, capped at the sequence length: it stops at the first matching
element without consuming the rest, and consumes the full sequence
exactly when no match exists (made explicit by the last conjunct);
(3) an eager literal list yields the same result as the lazy sequence
carrying the same logical values. -/
theorem claim6_membership (self : Parsed) (values : List Value)
    (literals : List Literal) :
    Parsed.exists_in self (.Value (values.map Except.ok)) =
        .ok (values.any fun v => Parsed.eq (.Value v) self) ∧
      (Parsed.exists_in self (.Value (values.map Except.ok)) = .ok true ↔
        ∃ v ∈ values, Parsed.eq (.Value v) self = true) ∧
      Parsed.existsInPulls self (values.map Except.ok) =
        min values.length
          ((values.takeWhile fun v => !(Parsed.eq (.Value v) self)).length
            + 1) ∧
      Parsed.exists_in self (.LiteralRef literals) =
        Parsed.exists_in self
          (.Value (literals.map fun l => Except.ok (litToValue l))) ∧
      ((values.any fun v => Parsed.eq (.Value v) self) = false →
        Parsed.existsInPulls self (values.map Except.ok) =
          values.length) := by
  have h1 : Parsed.exists_in self (.Value (values.map Except.ok)) =
      .ok (values.any fun v => Parsed.eq (.Value v) self) :=
    existsInValues_map_ok self values
  refine ⟨h1, ?_, existsInPulls_map_ok self values, ?_, ?_⟩
  · rw [h1]
    simp [List.any_eq_true]
  · show (Except.ok (literals.any fun literal =>
        Parsed.eq (.LiteralRef literal) self) : Except Unit Bool) =
      Parsed.existsInValues self (literals.map fun l => Except.ok (litToValue l))
    rw [show (literals.map fun l => Except.ok (litToValue l)) =
        (literals.map litToValue).map Except.ok by simp,
      existsInValues_map_ok, list_any_map_comp]
    simp only [parsed_eq_literalRef]
  · intro hnone
    rw [existsInPulls_map_ok]
    have : values.takeWhile (fun v => !(Parsed.eq (.Value v) self)) =
        values := by
      rw [List.takeWhile_eq_self_iff]
      intro v hv
      simp [List.any_eq_true] at hnone
      simp [hnone v hv]
    rw [this]
    omega

theorem claim6_witness :
    Parsed.exists_in (.LiteralRef (.Integer 2))
        (.Value ([Value.I64 1, Value.I64 2].map Except.ok)) = .ok true ∧
      Parsed.existsInPulls (.LiteralRef (.Integer 3))
        ([Value.I64 1, Value.I64 2].map Except.ok) = 2 := by
  refine ⟨?_, ?_⟩
  · rw [(claim6_membership (Parsed.LiteralRef (Literal.Integer 2))
      [Value.I64 1, Value.I64 2] []).1]
    rfl
  · exact (claim6_membership (Parsed.LiteralRef (Literal.Integer 3))
      [Value.I64 1, Value.I64 2] []).2.2.2.2 (by rfl)

end GlueSQL
